import Mathlib

/-!
Verification of the web2epub backend core (manifest store and extraction
engine) against its specification.  The Python sources `storage.py` and
`extractor.py` are embedded shallowly: records become structures, the
file system becomes explicit state, fallible code returns `Except`, and
nondeterministic inputs (generated ids, timestamps) become parameters.
-/

/-! ## Manifest store: data model (storage.py)

An `ArticleRecord` as persisted in `articles.json`: all six fields are
strings (`saved_at` is an ISO timestamp string). -/

structure Article where
  id : String
  title : String
  url : String
  domain : String
  saved_at : String
  filename : String
deriving DecidableEq, Repr

/-- The store state seen by `storage.py`: the manifest file (`none` when
`articles.json` does not exist, `some l` when it exists and parses to the
record list `l`; a zero-length file is modelled as `some []`), and the
`pdfs/` blob directory as an association list from file name to bytes. -/
structure StoreState where
  manifest : Option (List Article)
  blobs : List (String × List Nat)
deriving DecidableEq, Repr

def emptyStore : StoreState := ⟨none, []⟩

def blobHas (bl : List (String × List Nat)) (k : String) : Bool :=
  bl.any (fun p => p.1 == k)

/-- Writing a blob file: overwrite if present, else create. -/
def blobSet (bl : List (String × List Nat)) (k : String) (v : List Nat) :
    List (String × List Nat) :=
  if blobHas bl k then bl.map (fun p => if p.1 == k then (k, v) else p)
  else bl ++ [(k, v)]

/-- Unlinking a blob file. -/
def blobRemove (bl : List (String × List Nat)) (k : String) :
    List (String × List Nat) :=
  bl.filter (fun p => p.1 != k)

/-- `load_articles` (storage.py lines 30-44): empty list when the file is
missing or empty, else the parsed record list. -/
def load_articles (s : StoreState) : List Article :=
  match s.manifest with
  | none => []
  | some l => l

/-- `save_articles` (storage.py lines 47-59) at the record level: the
manifest file afterwards holds exactly the given collection.  (The
temporary-file/rename mechanics are modelled separately by
`save_articles_events` below.) -/
def save_articles (articles : List Article) (s : StoreState) : StoreState :=
  { s with manifest := some articles }

/-- `add_article` (storage.py lines 62-87).  The generated uuid and the
`datetime.now()` timestamp are passed in as parameters.  Faithful to the
source order: blob written first, then load → append → save. -/
def add_article (article_id title url domain saved_at : String)
    (pdf_bytes : List Nat) (s : StoreState) : Article × StoreState :=
  let filename := article_id ++ ".pdf"
  let s1 : StoreState := { s with blobs := blobSet s.blobs filename pdf_bytes }
  let article : Article := ⟨article_id, title, url, domain, saved_at, filename⟩
  let articles := load_articles s1
  let s2 := save_articles (articles ++ [article]) s1
  (article, s2)

/-- `delete_article` (storage.py lines 90-107): find by id; if absent
return `false` with no side effect; else save the filtered collection and
unlink the blob if it exists. -/
def delete_article (article_id : String) (s : StoreState) :
    Bool × StoreState :=
  let articles := load_articles s
  match articles.find? (fun a => a.id == article_id) with
  | none => (false, s)
  | some article =>
    let remaining := articles.filter (fun a => a.id != article_id)
    let s1 := save_articles remaining s
    if blobHas s1.blobs article.filename then
      (true, { s1 with blobs := blobRemove s1.blobs article.filename })
    else
      (true, s1)

/-! ## Manifest store: file-level model of `save_articles`

`save_articles` (storage.py lines 47-59) computes
`temp_file = ARTICLES_FILE.with_suffix(".tmp")`, writes the serialized
collection to `temp_file`, and then renames `temp_file` onto
`ARTICLES_FILE`.  We model the file names (relative to `DATA_DIR`) and
the sequence of file-system operations this performs. -/

abbrev FsPath := String

/-- Index of the last occurrence of `'.'` in a character list. -/
def lastDotIdx (cs : List Char) : Option Nat :=
  cs.enum.foldl (fun acc p => if p.2 = '.' then some p.1 else acc) none

/-- Python `pathlib.PurePath.with_suffix` on a final path component: the
existing suffix is the part from the last dot, provided that dot is
neither the first nor the last character; it is removed and the new
suffix appended (when there is no suffix the new one is just appended). -/
def pyWithSuffix (name suffix : String) : String :=
  let cs := name.toList
  match lastDotIdx cs with
  | some i =>
    if 0 < i ∧ i < cs.length - 1 then ⟨cs.take i⟩ ++ suffix
    else name ++ suffix
  | none => name ++ suffix

/-- `ARTICLES_FILE` relative to `DATA_DIR` (storage.py line 10). -/
def articlesFileName : FsPath := "articles.json"

/-- The temporary file used by `save_articles`
(`ARTICLES_FILE.with_suffix(".tmp")`, storage.py line 49). -/
def tempFileName : FsPath := pyWithSuffix articlesFileName ".tmp"

/-- A primitive file-system operation performed by `save_articles`.
`writeFile` stands for opening a path in `"w"` mode and writing the full
serialized collection to it (done under the exclusive lock, hence one
atomic event); `rename` is `Path.rename`. -/
inductive FsEvent where
  | writeFile (p : FsPath) (content : List Article)
  | rename (src dst : FsPath)
deriving DecidableEq, Repr

/-- The exact sequence of file-system operations performed by
`save_articles(articles)` (storage.py lines 47-59). -/
def save_articles_events (articles : List Article) : List FsEvent :=
  [FsEvent.writeFile tempFileName articles,
   FsEvent.rename tempFileName articlesFileName]

/-- A directory as a map from path to (parsed) file content; lookup takes
the most recent binding. -/
abbrev FileSys := List (FsPath × List Article)

def fsGet (fs : FileSys) (p : FsPath) : Option (List Article) :=
  (fs.find? (fun e => e.1 == p)).map (fun e => e.2)

def fsSet (fs : FileSys) (p : FsPath) (c : List Article) : FileSys :=
  (p, c) :: fs

def fsRemove (fs : FileSys) (p : FsPath) : FileSys :=
  fs.filter (fun e => e.1 != p)

def applyEvent (fs : FileSys) : FsEvent → FileSys
  | FsEvent.writeFile p c => fsSet fs p c
  | FsEvent.rename src dst =>
    match fsGet fs src with
    | some c => fsSet (fsRemove fs src) dst c
    | none => fs

def runEvents (fs : FileSys) (evs : List FsEvent) : FileSys :=
  evs.foldl applyEvent fs

/-- Every file-system state observable while a sequence of events runs,
initial and final states included. -/
def intermediates : FileSys → List FsEvent → List FileSys
  | fs, [] => [fs]
  | fs, e :: rest => fs :: intermediates (applyEvent fs e) rest

def isWriteTo (p : FsPath) : FsEvent → Bool
  | FsEvent.writeFile q _ => q == p
  | FsEvent.rename _ _ => false

/-- `load_articles` read at the file level (storage.py lines 30-44):
empty list when `articles.json` does not exist, else its parsed
content. -/
def load_articles_fs (fs : FileSys) : List Article :=
  match fsGet fs articlesFileName with
  | none => []
  | some l => l

/-! ## Manifest store: concurrent `add_article` calls

`add_article` holds the advisory lock only while reading the manifest
(inside `load_articles`) and only while writing the temporary file
(inside `save_articles`), so an execution of `add_article` decomposes
into three atomic steps — write blob, read manifest, replace manifest —
between which other executions may be scheduled. -/

/-- The inputs of one `add_article` call (uuid and timestamp made
explicit). -/
structure AddReq where
  id : String
  title : String
  url : String
  domain : String
  saved_at : String
  bytes : List Nat
deriving DecidableEq, Repr

/-- The record `add_article` constructs for a request
(storage.py lines 64-80). -/
def articleOfReq (r : AddReq) : Article :=
  ⟨r.id, r.title, r.url, r.domain, r.saved_at, r.id ++ ".pdf"⟩

/-- Sequential (non-overlapping) execution of a batch of `add_article`
calls. -/
def addAll (reqs : List AddReq) (s : StoreState) : StoreState :=
  reqs.foldl
    (fun s r => (add_article r.id r.title r.url r.domain r.saved_at r.bytes s).2) s

/-- One in-flight `add_article` execution: its request, its program
counter (0 = before the blob write, 1 = before the manifest read,
2 = before the manifest replace, 3 = returned), and the manifest
snapshot it loaded. -/
structure AddThread where
  req : AddReq
  pc : Nat
  loaded : List Article
deriving DecidableEq, Repr

/-- One atomic step of an `add_article` execution, at the granularity at
which storage.py holds the lock. -/
def stepAdd (s : StoreState) (t : AddThread) : StoreState × AddThread :=
  match t.pc with
  | 0 => ({ s with blobs := blobSet s.blobs (t.req.id ++ ".pdf") t.req.bytes },
          { t with pc := 1 })
  | 1 => (s, { t with loaded := load_articles s, pc := 2 })
  | 2 => (save_articles (t.loaded ++ [articleOfReq t.req]) s, { t with pc := 3 })
  | _ => (s, t)

/-- Run the threads under a given schedule (a list of thread indices). -/
def runSched : List Nat → StoreState × List AddThread → StoreState × List AddThread
  | [], st => st
  | i :: rest, (s, ts) =>
    match ts[i]? with
    | none => runSched rest (s, ts)
    | some t =>
      let st := stepAdd s t
      runSched rest (st.1, ts.set i st.2)

/-! ## Extraction engine: DOM model (extractor.py)

A parsed HTML document as BeautifulSoup exposes it: a tree of element
tags (name, attributes, children) and text nodes.  The soup object
itself is the list of top-level nodes. -/

mutual

inductive Node where
  | elem (tag : String) (attrs : List (String × String)) (children : NodeList)
  | text (s : String)

inductive NodeList where
  | nil
  | cons (head : Node) (tail : NodeList)

end

/-- The soup object: the list of top-level nodes of the document. -/
abbrev Doc := NodeList

/-- Node-list literal from a `List`. -/
def ofList : List Node → NodeList
  | [] => NodeList.nil
  | n :: ns => NodeList.cons n (ofList ns)

mutual

/-- First node of a subtree (pre-order, document order) satisfying a
predicate — the search order of BeautifulSoup `find` / `select_one`. -/
def findNodeN (p : Node → Bool) : Node → Option Node
  | Node.elem t a c =>
    if p (Node.elem t a c) then some (Node.elem t a c) else findNodeL p c
  | Node.text s => if p (Node.text s) then some (Node.text s) else none

def findNodeL (p : Node → Bool) : NodeList → Option Node
  | NodeList.nil => none
  | NodeList.cons n ns =>
    match findNodeN p n with
    | some r => some r
    | none => findNodeL p ns

end

def findNode (p : Node → Bool) (d : NodeList) : Option Node := findNodeL p d

def isTag (t : String) : Node → Bool
  | Node.elem tg _ _ => tg == t
  | Node.text _ => false

/-- `soup.find(t)` / attribute access `soup.t`. -/
def findTag (t : String) (d : NodeList) : Option Node :=
  findNode (isTag t) d

/-- Attribute lookup, `tag.get(k)` / `tag[k]`. -/
def getAttr : Node → String → Option String
  | Node.elem _ attrs _, k => (attrs.find? (fun a => a.1 == k)).map (fun a => a.2)
  | Node.text _, _ => none

/-- The tags removed destructively by `_extract_content`
(extractor.py line 82). -/
def badTags : List String := ["script", "style", "nav", "header", "footer"]

mutual

/-- Decomposition of one subtree: `none` when the node's tag is in
`badTags`, otherwise the node with every bad descendant removed. -/
def stripN : Node → Option Node
  | Node.text s => some (Node.text s)
  | Node.elem t a c =>
    if badTags.contains t then none else some (Node.elem t a (stripL c))

/-- `for script in soup(["script","style","nav","header","footer"]):
script.decompose()` — every element with one of those tag names is
removed together with its whole subtree. -/
def stripL : NodeList → NodeList
  | NodeList.nil => NodeList.nil
  | NodeList.cons n ns =>
    match stripN n with
    | some m => NodeList.cons m (stripL ns)
    | none => stripL ns

end

def stripNodes (d : NodeList) : NodeList := stripL d

/-- Serialization of one attribute as `str(tag)` prints it. -/
def serializeAttr (a : String × String) : String :=
  " " ++ a.1 ++ "=\"" ++ a.2 ++ "\""

mutual

/-- `str(tag)` / `str(soup)`: the serialized HTML of a node. -/
def serializeNode : Node → String
  | Node.text s => s
  | Node.elem t attrs cs =>
    "<" ++ t ++ String.join (attrs.map serializeAttr) ++ ">"
      ++ serializeList cs ++ "</" ++ t ++ ">"

def serializeList : NodeList → String
  | NodeList.nil => ""
  | NodeList.cons n ns => serializeNode n ++ serializeList ns

end

mutual

/-- BeautifulSoup `tag.string`: the single string content — defined when
the node is a text node, or an element whose only child recursively has
a single string content. -/
def nodeString : Node → Option String
  | Node.text s => some s
  | Node.elem _ _ c => nodeStringL c

def nodeStringL : NodeList → Option String
  | NodeList.cons c NodeList.nil => nodeString c
  | NodeList.nil => none
  | NodeList.cons _ (NodeList.cons _ _) => none

end

/-- The characters Python `str.strip()` and `str.split()` treat as
whitespace (ASCII range). -/
def wsChar (c : Char) : Bool :=
  c == ' ' || c == '\t' || c == '\n' || c == '\r' || c == '\x0b' || c == '\x0c'

/-- Python `str.strip()`: surrounding whitespace removed. -/
def pyStrip (s : String) : String :=
  ⟨((s.data.dropWhile wsChar).reverse.dropWhile wsChar).reverse⟩

def wsSplitGo : List Char → List Char → List String
  | [], acc => if acc.isEmpty then [] else [⟨acc.reverse⟩]
  | c :: rest, acc =>
    if wsChar c then
      if acc.isEmpty then wsSplitGo rest []
      else ⟨acc.reverse⟩ :: wsSplitGo rest []
    else wsSplitGo rest (c :: acc)

/-- Python `str.split()`: maximal non-whitespace runs. -/
def wsSplit (s : String) : List String := wsSplitGo s.data []

mutual

/-- `tag.get_text(strip=True)`: each descendant text fragment stripped
of surrounding whitespace and concatenated. -/
def getTextStrip : Node → String
  | Node.text s => pyStrip s
  | Node.elem _ _ c => getTextStripList c

def getTextStripList : NodeList → String
  | NodeList.nil => ""
  | NodeList.cons n ns => getTextStrip n ++ getTextStripList ns

end

/-- The whitespace-separated class tokens of an element's `class`
attribute. -/
def classTokens (n : Node) : List String :=
  match getAttr n "class" with
  | none => []
  | some v => (v.split (fun c => c == ' ' || c == '\t' || c == '\n' || c == '\r')).filter
      (fun t => t != "")

/-- A CSS selector of the shapes used by `_extract_content`: an optional
tag name together with one required class. -/
def matchesSelector (tag? : Option String) (cls : String) (n : Node) : Bool :=
  match n with
  | Node.elem t _ _ =>
    (match tag? with
     | some tg => t == tg
     | none => true) && (classTokens n).contains cls
  | Node.text _ => false

/-- `soup.select_one` for such a selector. -/
def selectOne (tag? : Option String) (cls : String) (d : NodeList) : Option Node :=
  findNode (matchesSelector tag? cls) d

/-- The selector list of extractor.py line 95:
`['div.content', 'div.post', 'div.entry', 'div.post-content',
'.article-body']`. -/
def contentSelectors : List (Option String × String) :=
  [(some "div", "content"), (some "div", "post"), (some "div", "entry"),
   (some "div", "post-content"), (none, "article-body")]

/-- The `for selector in [...]` loop of extractor.py lines 95-98. -/
def trySelectors : List (Option String × String) → NodeList → Option Node
  | [], _ => none
  | s :: rest, d =>
    match selectOne s.1 s.2 d with
    | some e => some e
    | none => trySelectors rest d

/-- `_extract_content` (extractor.py lines 79-106): strip script, style,
nav, header and footer subtrees, then return the serialization of the
first strategy that matches: `<article>` → `<main>` → common content
selectors → `<body>` → the whole document. -/
def extract_content (d : Doc) : String :=
  match findTag "article" (stripNodes d) with
  | some a => serializeNode a
  | none =>
    match findTag "main" (stripNodes d) with
    | some m => serializeNode m
    | none =>
      match trySelectors contentSelectors (stripNodes d) with
      | some e => serializeNode e
      | none =>
        match findTag "body" (stripNodes d) with
        | some b => serializeNode b
        | none => serializeList (stripNodes d)

/-- Is a node the `og:title` meta tag searched for by
`soup.find('meta', property='og:title')`? -/
def isOgTitleMeta (n : Node) : Bool :=
  match n with
  | Node.elem t attrs _ =>
    t == "meta" && ((attrs.find? (fun a => a.1 == "property")).map (fun a => a.2)
      == some "og:title")
  | Node.text _ => false

/-- Third title source (extractor.py lines 71-74): the `og:title` meta
content, trimmed, when the attribute value is truthy. -/
def titleFromOg (d : Doc) : String :=
  match findNode isOgTitleMeta d with
  | some m =>
    match getAttr m "content" with
    | some c => if c == "" then "Untitled" else pyStrip c
    | none => "Untitled"
  | none => "Untitled"

/-- Second title source (extractor.py lines 66-69): the first `<h1>`
whose stripped text is truthy. -/
def titleFromH1 (d : Doc) : String :=
  match findTag "h1" d with
  | some h => if getTextStrip h == "" then titleFromOg d else getTextStrip h
  | none => titleFromOg d

/-- `_extract_title` (extractor.py lines 60-76): `<title>` string →
first `<h1>` text → `og:title` content → `"Untitled"`. -/
def extract_title (d : Doc) : String :=
  match findTag "title" d with
  | some t =>
    match nodeString t with
    | some s => if s == "" then titleFromH1 d else pyStrip s
    | none => titleFromH1 d
  | none => titleFromH1 d

/-! ## Extraction engine: domain derivation and the engine entry point -/

/-- The characters `urllib.parse` accepts inside a scheme. -/
def isSchemeChar (c : Char) : Bool :=
  c.isAlpha || c.isDigit || c == '+' || c == '-' || c == '.'

/-- Strip a leading `scheme:` when present, as `urlsplit` does: the text
before the first `':'` must be non-empty and consist of scheme
characters. -/
def dropScheme (cs : List Char) : List Char :=
  match cs.findIdx? (fun c => c = ':') with
  | some i =>
    if 0 < i ∧ (cs.take i).all isSchemeChar then cs.drop (i + 1) else cs
  | none => cs

/-- `urlparse(url).netloc`: after the scheme, a `"//"` introduces the
network location, which extends to the next `'/'`, `'?'` or `'#'`. -/
def netlocChars (url : String) : List Char :=
  match dropScheme url.toList with
  | '/' :: '/' :: rest =>
    rest.takeWhile (fun c => !(c == '/' || c == '?' || c == '#'))
  | _ => []

def netloc (url : String) : String := ⟨netlocChars url⟩

/-- Domain derivation (extractor.py lines 37-41): the netloc, with one
leading `"www."` stripped when present. -/
def extract_domain (url : String) : String :=
  let d := netlocChars url
  if d.take 4 = "www.".toList then ⟨d.drop 4⟩ else ⟨d⟩

/-- The one failure `extract_article` raises from the extraction chain
(extractor.py line 50, "Could not extract article content from this
URL"). -/
inductive ExtractError where
  | extractionFailed
deriving DecidableEq, Repr

/-- The result dictionary of `extract_article`. -/
structure Extracted where
  title : String
  content : String
  url : String
  domain : String
deriving DecidableEq, Repr

/-- `extract_article` (extractor.py lines 6-57) after the fetch: derive
the domain, resolve the title, extract the content, and fail exactly
when the extracted content is falsy (empty). -/
def extract_article (d : Doc) (url : String) : Except ExtractError Extracted :=
  let domain := extract_domain url
  let title := extract_title d
  let content := extract_content d
  if content == "" then Except.error ExtractError.extractionFailed
  else Except.ok ⟨title, content, url, domain⟩

def exOk (e : Except ExtractError Extracted) : Bool :=
  match e with
  | Except.ok _ => true
  | Except.error _ => false

/-- Does the document have a usable `<title>` (the code's
`soup.title and soup.title.string` test)? -/
def titleUsable (d : Doc) : Bool :=
  match findTag "title" d with
  | some t =>
    match nodeString t with
    | some s => s != ""
    | none => false
  | none => false

/-- Does the document have a usable `<h1>` (the code's
`h1 and h1.get_text(strip=True)` test)? -/
def h1Usable (d : Doc) : Bool :=
  match findTag "h1" d with
  | some n => getTextStrip n != ""
  | none => false

/-- Does the document have a usable `og:title` meta (the code's
`og_title and og_title.get('content')` test)? -/
def ogUsable (d : Doc) : Bool :=
  match findNode isOgTitleMeta d with
  | some m =>
    match getAttr m "content" with
    | some c => c != ""
    | none => false
  | none => false

/-! ## Concrete fixtures -/

/-- `<html><head></head><body></body></html>`. -/
def emptyDoc : Doc :=
  ofList [Node.elem "html" []
    (ofList [Node.elem "head" [] NodeList.nil, Node.elem "body" [] NodeList.nil])]

/-- A document whose only title source is a whitespace-only `<title>`. -/
def wsTitleDoc : Doc :=
  ofList [Node.elem "html" []
    (ofList [Node.elem "head" []
      (ofList [Node.elem "title" [] (ofList [Node.text "   "])]),
     Node.elem "body" [] NodeList.nil])]

/-- A document whose sole `<article>` sits inside a `<nav>`. -/
def navArticleDoc : Doc :=
  ofList [Node.elem "html" []
    (ofList [Node.elem "body" []
      (ofList [Node.elem "nav" []
        (ofList [Node.elem "article" [] (ofList [Node.text "hi"])])])])]

/-- A document with a plain `<article>` in the body. -/
def articleDocW : Doc :=
  ofList [Node.elem "html" []
    (ofList [Node.elem "body" []
      (ofList [Node.elem "article" [] (ofList [Node.text "Hello"])])])]

/-- A document with a `<title>` carrying padded text. -/
def titleDocW : Doc :=
  ofList [Node.elem "html" []
    (ofList [Node.elem "head" []
      (ofList [Node.elem "title" [] (ofList [Node.text " A Title "])]),
     Node.elem "body" [] NodeList.nil])]

def reqA : AddReq := ⟨"id-a", "A", "https://a/", "a", "2024-01-01T00:00:00", [1]⟩

def reqB : AddReq := ⟨"id-b", "B", "https://b/", "b", "2024-01-01T00:00:01", [2]⟩

/-- Two concurrent `add_article` calls against an empty store, scheduled
alternately: both write their blob, both read the empty manifest, then
each replaces the manifest with its own one-record collection. -/
def raceRun : StoreState × List AddThread :=
  runSched [0, 1, 0, 1, 0, 1] (emptyStore, [⟨reqA, 0, []⟩, ⟨reqB, 0, []⟩])

def artW : Article :=
  ⟨"a1", "T", "https://example.com/x", "example.com",
   "2024-01-02T03:04:05", "a1.pdf"⟩

def artW2 : Article :=
  ⟨"b2", "U", "https://example.org/y", "example.org",
   "2024-01-03T03:04:05", "b2.pdf"⟩

def storeW : StoreState :=
  ⟨some [artW, artW2], [("a1.pdf", [1, 2]), ("b2.pdf", [3])]⟩

def fsW : FileSys := [(articlesFileName, [artW])]

/-! ## Helper lemmas -/

theorem fsGet_cons (p q : FsPath) (c : List Article) (fs : FileSys) :
    fsGet ((p, c) :: fs) q = if (p == q) = true then some c else fsGet fs q := by
  by_cases h : (p == q) = true
  · simp [fsGet, List.find?_cons, h]
  · simp [fsGet, List.find?_cons, h]

theorem tempFileName_eq : tempFileName = "articles.tmp" := by decide

theorem fsGet_set_self (fs : FileSys) (p : FsPath) (c : List Article) :
    fsGet (fsSet fs p c) p = some c := by
  simp only [fsSet]
  rw [fsGet_cons]
  simp

/-- After the `save_articles` event sequence runs, the manifest path
holds exactly the saved collection. -/
theorem runSave_fsGet (fs : FileSys) (arts : List Article) :
    fsGet (runEvents fs (save_articles_events arts)) articlesFileName = some arts := by
  simp only [save_articles_events, runEvents, List.foldl, applyEvent,
    fsGet_set_self]

/-- Writing the temporary file does not change what a reader of the
manifest path observes. -/
theorem fsGet_write_temp (fs : FileSys) (arts : List Article) :
    fsGet (fsSet fs tempFileName arts) articlesFileName = fsGet fs articlesFileName := by
  simp only [fsSet]
  rw [fsGet_cons]
  simp [tempFileName_eq, articlesFileName]

/-- When the `<title>` source is unusable the chain moves on to the
`<h1>` source. -/
theorem title_chain_1 (d : Doc) (h : titleUsable d = false) :
    extract_title d = titleFromH1 d := by
  unfold titleUsable at h
  unfold extract_title
  cases hf : findTag "title" d with
  | none => rfl
  | some t =>
    rw [hf] at h
    dsimp only at h ⊢
    cases hs : nodeString t with
    | none => rfl
    | some s =>
      rw [hs] at h
      dsimp only at h
      have hse : s = "" := by simpa using h
      simp [hse]

/-- When the `<h1>` source is unusable the chain moves on to the
`og:title` source. -/
theorem title_chain_2 (d : Doc) (h : h1Usable d = false) :
    titleFromH1 d = titleFromOg d := by
  unfold h1Usable at h
  unfold titleFromH1
  cases hf : findTag "h1" d with
  | none => rfl
  | some n =>
    rw [hf] at h
    dsimp only at h ⊢
    have hge : getTextStrip n = "" := by simpa using h
    simp [hge]

/-- When the `og:title` source is unusable the chain ends at the
sentinel. -/
theorem title_chain_3 (d : Doc) (h : ogUsable d = false) :
    titleFromOg d = "Untitled" := by
  unfold ogUsable at h
  unfold titleFromOg
  cases hf : findNode isOgTitleMeta d with
  | none => rfl
  | some m =>
    rw [hf] at h
    dsimp only at h ⊢
    cases ha : getAttr m "content" with
    | none => rfl
    | some c =>
      rw [ha] at h
      dsimp only at h
      have hce : c = "" := by simpa using h
      simp [hce]

/-- The `og:title` arm either produces a non-empty title or its selected
content attribute is whitespace-only. -/
theorem titleFromOg_cases (d : Doc) :
    titleFromOg d ≠ "" ∨
    (∃ m c, findNode isOgTitleMeta d = some m ∧ getAttr m "content" = some c ∧
      c ≠ "" ∧ pyStrip c = "") := by
  unfold titleFromOg
  cases hf : findNode isOgTitleMeta d with
  | none => left; decide
  | some m =>
    dsimp only
    cases ha : getAttr m "content" with
    | none => left; decide
    | some c =>
      dsimp only
      by_cases hce : c = ""
      · left; simp [hce]
      · have : (c == "") = false := beq_eq_false_iff_ne.mpr hce
        rw [this]
        by_cases hct : pyStrip c = ""
        · right
          exact ⟨m, c, rfl, ha, hce, hct⟩
        · left
          simpa using hct

/-- The `<h1>` arm either produces a non-empty title or defers to the
`og:title` case analysis. -/
theorem titleFromH1_cases (d : Doc) :
    titleFromH1 d ≠ "" ∨
    (∃ m c, findNode isOgTitleMeta d = some m ∧ getAttr m "content" = some c ∧
      c ≠ "" ∧ pyStrip c = "") := by
  unfold titleFromH1
  cases hf : findTag "h1" d with
  | none => exact titleFromOg_cases d
  | some n =>
    dsimp only
    by_cases hg : getTextStrip n = ""
    · simp only [hg]
      simpa using titleFromOg_cases d
    · have : (getTextStrip n == "") = false := beq_eq_false_iff_ne.mpr hg
      rw [this]
      left
      simpa using hg

/-! ## Claim C4 -/

/-- C4: title resolution tries, in order, the document `<title>` string,
then the first `<h1>` text, then the `og:title` meta content, then the
sentinel `"Untitled"`.  A usable `<title>` string is returned trimmed of
surrounding whitespace, and each unusable (in particular absent) earlier
source makes the chain fall through to the next. -/
theorem c4_theorem (d : Doc) :
    (∀ t s, findTag "title" d = some t → nodeString t = some s → s ≠ "" →
      extract_title d = pyStrip s) ∧
    (titleUsable d = false → ∀ n, findTag "h1" d = some n →
      getTextStrip n ≠ "" → extract_title d = getTextStrip n) ∧
    (titleUsable d = false → h1Usable d = false → ∀ m c,
      findNode isOgTitleMeta d = some m → getAttr m "content" = some c →
      c ≠ "" → extract_title d = pyStrip c) ∧
    (titleUsable d = false → h1Usable d = false → ogUsable d = false →
      extract_title d = "Untitled") := by
  refine ⟨?_, ?_, ?_, ?_⟩
  · intro t s ht hs hne
    unfold extract_title
    rw [ht]
    dsimp only
    rw [hs]
    dsimp only
    have : (s == "") = false := beq_eq_false_iff_ne.mpr hne
    simp [this]
  · intro h1 n hf hg
    rw [title_chain_1 d h1]
    unfold titleFromH1
    rw [hf]
    dsimp only
    have : (getTextStrip n == "") = false := beq_eq_false_iff_ne.mpr hg
    simp [this]
  · intro h1 h2 m c hf ha hc
    rw [title_chain_1 d h1, title_chain_2 d h2]
    unfold titleFromOg
    rw [hf]
    dsimp only
    rw [ha]
    dsimp only
    have : (c == "") = false := beq_eq_false_iff_ne.mpr hc
    simp [this]
  · intro h1 h2 h3
    rw [title_chain_1 d h1, title_chain_2 d h2, title_chain_3 d h3]

/-- C4, witness: on a document whose `<title>` holds `" A Title "` the
resolved title is the trimmed text, and on a document with no title
source at all the chain falls through to `"Untitled"`. -/
theorem c4_witness :
    extract_title titleDocW = pyStrip " A Title " ∧
    extract_title emptyDoc = "Untitled" :=
  ⟨(c4_theorem titleDocW).1 (Node.elem "title" [] (ofList [Node.text " A Title "]))
      " A Title " rfl rfl (by decide),
   (c4_theorem emptyDoc).2.2.2 rfl rfl rfl⟩

/-! ## Claim C5 -/

/-- C5, counterexample: a document whose only title source is a
whitespace-only `<title>` makes title resolution return the empty
string — the chain accepts the truthy raw string `"   "` and trims it to
`""`, so the produced title is not always non-empty. -/
theorem c5_counterexample : extract_title wsTitleDoc = "" := rfl

/-- C5 (amended): the resolved title is non-empty — in particular the
sentinel `"Untitled"` is returned when no source is usable — except when
the source the chain selects has non-empty but whitespace-only text
(a whitespace-only `<title>` string or `og:title` content), in which
case trimming produces the empty title. -/
theorem c5_theorem (d : Doc) :
    extract_title d ≠ "" ∨
    (∃ t s, findTag "title" d = some t ∧ nodeString t = some s ∧
      s ≠ "" ∧ pyStrip s = "") ∨
    (∃ m c, findNode isOgTitleMeta d = some m ∧ getAttr m "content" = some c ∧
      c ≠ "" ∧ pyStrip c = "") := by
  unfold extract_title
  cases hf : findTag "title" d with
  | none =>
    rcases titleFromH1_cases d with h | h
    · exact Or.inl h
    · exact Or.inr (Or.inr h)
  | some t =>
    dsimp only
    cases hs : nodeString t with
    | none =>
      rcases titleFromH1_cases d with h | h
      · exact Or.inl h
      · exact Or.inr (Or.inr h)
    | some s =>
      dsimp only
      by_cases hse : s = ""
      · simp only [hse]
        rcases titleFromH1_cases d with h | h
        · simpa using Or.inl h
        · exact Or.inr (Or.inr h)
      · have hb : (s == "") = false := beq_eq_false_iff_ne.mpr hse
        rw [hb]
        by_cases hst : pyStrip s = ""
        · exact Or.inr (Or.inl ⟨t, s, rfl, hs, hse, hst⟩)
        · left
          simpa using hst

/-! ## Claim C6 -/

/-- C6, counterexample: `navArticleDoc` contains an `<article>` element,
but that element sits inside a `<nav>`, which the destructive removal
pass deletes together with its subtree — so structural extraction falls
through to the body strategy and returns `<body></body>` instead of the
article's serialization. -/
theorem c6_counterexample :
    (findTag "article" navArticleDoc).isSome = true ∧
    extract_content navArticleDoc = "<body></body>" ∧
    serializeNode (Node.elem "article" [] (ofList [Node.text "hi"])) =
      "<article>hi</article>" ∧
    extract_content navArticleDoc ≠
      serializeNode (Node.elem "article" [] (ofList [Node.text "hi"])) :=
  ⟨rfl, rfl, rfl, by decide⟩

/-- C6 (amended): whenever the document still contains an `<article>`
element after the destructive removal of script, style, nav, header and
footer subtrees, structural extraction returns the serialized HTML of
the first such element, consulting no later strategy. -/
theorem c6_theorem (d : Doc) (a : Node)
    (h : findTag "article" (stripNodes d) = some a) :
    extract_content d = serializeNode a := by
  unfold extract_content
  rw [h]

/-- C6, witness: on a document with a plain `<article>` in the body the
extracted content is exactly that element's serialization. -/
theorem c6_witness :
    extract_content articleDocW =
      serializeNode (Node.elem "article" [] (ofList [Node.text "Hello"])) :=
  c6_theorem articleDocW (Node.elem "article" [] (ofList [Node.text "Hello"])) rfl

/-! ## Claim C3 -/

/-- C3, counterexample: `save_articles` writes its temporary file at
`articles.tmp` — the path produced by `with_suffix(".tmp")`, which
replaces the manifest's `.json` extension — not at the
added-extension path `articles.json.tmp` the claim describes. -/
theorem c3_counterexample :
    save_articles_events [] =
      [FsEvent.writeFile "articles.tmp" [],
       FsEvent.rename "articles.tmp" "articles.json"] ∧
    tempFileName ≠ articlesFileName ++ ".tmp" := by
  constructor
  · rfl
  · decide

/-- C3 (amended): `save_articles(articles)` serializes the full
collection to the temporary sibling file `articles.tmp` (the manifest
path with its extension replaced by `.tmp`), then atomically renames
that file onto the manifest path.  No write event ever targets the
manifest path itself; the last event is the rename; afterwards the
manifest holds exactly the saved collection; and every state observable
during the sequence shows the manifest either with its old content or
with the complete new collection — never a partial write. -/
theorem c3_theorem (arts : List Article) (fs : FileSys) :
    tempFileName = "articles.tmp" ∧
    ((save_articles_events arts).all
      (fun e => !(isWriteTo articlesFileName e))) = true ∧
    (save_articles_events arts).getLast? =
      some (FsEvent.rename tempFileName articlesFileName) ∧
    fsGet (runEvents fs (save_articles_events arts)) articlesFileName = some arts ∧
    ((intermediates fs (save_articles_events arts)).all
      (fun g => decide (fsGet g articlesFileName = fsGet fs articlesFileName)
        || decide (fsGet g articlesFileName = some arts))) = true := by
  have hW : ((save_articles_events arts).all
      (fun e => !(isWriteTo articlesFileName e))) = true := by
    simp only [save_articles_events, List.all_cons, List.all_nil, isWriteTo]
    decide
  refine ⟨tempFileName_eq, hW, rfl, runSave_fsGet fs arts, ?_⟩
  simp only [save_articles_events, intermediates, applyEvent, fsGet_set_self,
    List.all_cons, List.all_nil, Bool.and_true]
  have h1 : fsGet (fsSet fs tempFileName arts) articlesFileName
      = fsGet fs articlesFileName := fsGet_write_temp fs arts
  have h2 : fsGet (fsSet (fsRemove (fsSet fs tempFileName arts) tempFileName)
      articlesFileName arts) articlesFileName = some arts := fsGet_set_self _ _ _
  simp [h1, h2]

/-! ## Claim C8 -/

/-- C8: for a non-empty manifest, `save_articles(load_articles())`
leaves the manifest holding exactly the original records — every
record's field values unchanged. -/
theorem c8_theorem (fs : FileSys) (arts : List Article)
    (h1 : fsGet fs articlesFileName = some arts) (_hne : arts ≠ []) :
    fsGet (runEvents fs (save_articles_events (load_articles_fs fs)))
      articlesFileName = some arts ∧
    load_articles_fs (runEvents fs (save_articles_events (load_articles_fs fs)))
      = arts := by
  have hload : load_articles_fs fs = arts := by
    simp [load_articles_fs, h1]
  rw [hload]
  refine ⟨runSave_fsGet fs arts, ?_⟩
  simp [load_articles_fs, runSave_fsGet fs arts]

/-- C8, witness: the round trip on a concrete one-record manifest. -/
theorem c8_witness :
    fsGet (runEvents fsW (save_articles_events (load_articles_fs fsW)))
      articlesFileName = some [artW] ∧
    load_articles_fs (runEvents fsW (save_articles_events (load_articles_fs fsW)))
      = [artW] :=
  c8_theorem fsW [artW] rfl (by simp)

/-! ## Claim C2 -/

/-- C2, counterexample: on the document
`<html><head></head><body></body></html>` every strategy of the chain
yields only the near-empty fallback body `<body></body>` (13 characters,
far below the 100-character near-empty threshold the specification
defines), yet `extract_article` succeeds instead of failing with
`ExtractionFailed` — so extraction does not fail "exactly when every
content strategy yields empty or near-empty output". -/
theorem c2_counterexample :
    extract_article emptyDoc "https://example.com/x" =
      Except.ok ⟨"Untitled", "<body></body>", "https://example.com/x",
        "example.com"⟩ ∧
    (extract_content emptyDoc).length < 100 := by
  constructor
  · rfl
  · decide

/-- C2 (amended): `extract_article` fails — and fails with
`ExtractionFailed`, the only error the engine can produce — exactly when
the content chain yields the empty string; near-empty but non-empty
output is returned successfully, as on the head/body-only document,
which yields the minimal fallback body.  The engine is a total function
into `Except`, so no other exception escapes it. -/
theorem c2_theorem :
    (∀ (d : Doc) (u : String),
      exOk (extract_article d u) = !(extract_content d == "")) ∧
    extract_article emptyDoc "https://example.com/x" =
      Except.ok ⟨"Untitled", "<body></body>", "https://example.com/x",
        "example.com"⟩ := by
  constructor
  · intro d u
    cases hc : (extract_content d == "") with
    | false => simp [extract_article, exOk, hc]
    | true => simp [extract_article, exOk, hc]
  · rfl

/-! ## Claim C7 -/

/-- C7: domain derivation takes the netloc of the URL and strips exactly
one leading `"www."`: the two specified examples hold, a doubled
`"www.www."` loses only one copy, and in general the derived domain is
the netloc either unchanged (when it does not start with `"www."`) or
with precisely that four-character prefix removed. -/
theorem c7_theorem :
    extract_domain "https://www.example.com/a" = "example.com" ∧
    extract_domain "https://sub.example.com/a" = "sub.example.com" ∧
    extract_domain "https://www.www.example.com/a" = "www.example.com" ∧
    ∀ u : String,
      ((netlocChars u).take 4 = "www.".toList ∧
        "www." ++ extract_domain u = netloc u) ∨
      ((netlocChars u).take 4 ≠ "www.".toList ∧ extract_domain u = netloc u) := by
  refine ⟨by decide, by decide, by decide, ?_⟩
  intro u
  by_cases h : (netlocChars u).take 4 = "www.".toList
  · left
    refine ⟨h, ?_⟩
    apply String.ext
    rw [String.data_append]
    show "www.".data ++ (extract_domain u).data = (netloc u).data
    have hd : extract_domain u = ⟨(netlocChars u).drop 4⟩ := by
      simp only [extract_domain, if_pos h]
    rw [hd]
    show "www.".data ++ (netlocChars u).drop 4 = netlocChars u
    have : "www.".data = (netlocChars u).take 4 := by
      rw [h]; rfl
    rw [this, List.take_append_drop]
  · right
    refine ⟨h, ?_⟩
    simp only [extract_domain, if_neg h]
    rfl

/-! ## Claim C1 -/

theorem load_add (article_id title url domain saved_at : String)
    (b : List Nat) (s : StoreState) :
    load_articles (add_article article_id title url domain saved_at b s).2 =
      load_articles s ++
        [⟨article_id, title, url, domain, saved_at, article_id ++ ".pdf"⟩] :=
  rfl

theorem addAll_cons (r : AddReq) (rs : List AddReq) (s : StoreState) :
    addAll (r :: rs) s =
      addAll rs (add_article r.id r.title r.url r.domain r.saved_at r.bytes s).2 :=
  rfl

/-- Sequential adds append their records to the manifest in order. -/
theorem load_addAll (reqs : List AddReq) :
    ∀ s : StoreState,
      load_articles (addAll reqs s) = load_articles s ++ reqs.map articleOfReq := by
  induction reqs with
  | nil => intro s; simp [addAll]
  | cons r rs ih =>
    intro s
    rw [addAll_cons, ih, load_add]
    simp [articleOfReq]

theorem blobSet_fresh (bl : List (String × List Nat)) (k : String)
    (v : List Nat) (h : blobHas bl k = false) : blobSet bl k v = bl ++ [(k, v)] := by
  simp [blobSet, h]

/-- Sequential adds with fresh, pairwise-distinct blob file names append
their blobs to the directory in order. -/
theorem blobs_addAll (reqs : List AddReq) :
    ∀ (m : Option (List Article)) (bl : List (String × List Nat)),
      ((reqs.map (fun r => r.id ++ ".pdf")).all (fun f => !(blobHas bl f))) = true →
      (reqs.map (fun r => r.id ++ ".pdf")).Nodup →
      (addAll reqs (⟨m, bl⟩ : StoreState)).blobs =
        bl ++ reqs.map (fun r => (r.id ++ ".pdf", r.bytes)) := by
  induction reqs with
  | nil => intro m bl _ _; simp [addAll]
  | cons r rs ih =>
    intro m bl hfresh hnodup
    have hsplit : (!(blobHas bl (r.id ++ ".pdf"))) = true ∧
        ((rs.map (fun x => x.id ++ ".pdf")).all
          (fun f => !(blobHas bl f))) = true := by
      have h0 := hfresh
      rw [List.map_cons, List.all_cons, Bool.and_eq_true] at h0
      exact h0
    have hf : blobHas bl (r.id ++ ".pdf") = false := by
      simpa using hsplit.1
    have hstep :
        (add_article r.id r.title r.url r.domain r.saved_at r.bytes
          (⟨m, bl⟩ : StoreState)).2 =
        ⟨some (load_articles (⟨m, bl⟩ : StoreState) ++ [articleOfReq r]),
          blobSet bl (r.id ++ ".pdf") r.bytes⟩ :=
      rfl
    rw [addAll_cons, hstep, blobSet_fresh bl _ _ hf]
    have hfresh2 : ((rs.map (fun x => x.id ++ ".pdf")).all
        (fun f => !(blobHas (bl ++ [(r.id ++ ".pdf", r.bytes)]) f))) = true := by
      rw [List.all_eq_true]
      intro f hfmem
      have hbl : blobHas bl f = false := by
        have h1 := List.all_eq_true.mp hsplit.2 f hfmem
        simpa using h1
      have hne : (r.id ++ ".pdf") ≠ f := by
        intro he
        have hmem2 : (r.id ++ ".pdf") ∈ List.map (fun x => x.id ++ ".pdf") rs := by
          rw [he]
          exact hfmem
        exact (List.nodup_cons.mp hnodup).1 hmem2
      have hval : blobHas (bl ++ [(r.id ++ ".pdf", r.bytes)]) f = false := by
        unfold blobHas at hbl ⊢
        rw [List.any_append, hbl]
        simp only [List.any_cons, List.any_nil, Bool.or_false, Bool.false_or]
        exact beq_eq_false_iff_ne.mpr hne
      simp [hval]
    have hnodup2 : (rs.map (fun x => x.id ++ ".pdf")).Nodup :=
      (List.nodup_cons.mp hnodup).2
    rw [ih _ _ hfresh2 hnodup2]
    simp

/-- Strings remain distinct after appending the `.pdf` suffix. -/
theorem append_pdf_inj (a b : String) (h : a ++ ".pdf" = b ++ ".pdf") : a = b := by
  have hd : (a ++ ".pdf").data = (b ++ ".pdf").data := congrArg String.data h
  rw [String.data_append, String.data_append] at hd
  exact String.ext (List.append_cancel_right hd)

/-- C1, counterexample: two concurrent `add_article` calls against the
empty store, interleaved as allowed by the locking discipline (each lock
covers only one manifest read or one manifest write), both complete
successfully and both blob files exist, yet `load_articles` afterwards
returns one record, not two — the second manifest replace overwrites the
first, losing an add. -/
theorem c1_counterexample :
    (raceRun.2.all (fun t => t.pc == 3)) = true ∧
    raceRun.1.blobs.length = 2 ∧
    (load_articles raceRun.1).length = 1 ∧
    (load_articles raceRun.1).length ≠ 2 := by
  refine ⟨rfl, rfl, rfl, by decide⟩

/-- C1 (amended): under concurrency an add can be lost (last
full-collection write wins), but N sequential (non-overlapping)
`add_article` calls against an empty store, with pairwise-distinct
generated ids, all complete and leave exactly N manifest records
carrying the N distinct ids in order, and N blob files on disk. -/
theorem c1_theorem (reqs : List AddReq) (h : (reqs.map AddReq.id).Nodup) :
    (load_articles (addAll reqs emptyStore)).length = reqs.length ∧
    (load_articles (addAll reqs emptyStore)).map Article.id = reqs.map AddReq.id ∧
    ((load_articles (addAll reqs emptyStore)).map Article.id).Nodup ∧
    (addAll reqs emptyStore).blobs.map Prod.fst =
      reqs.map (fun r => r.id ++ ".pdf") ∧
    (addAll reqs emptyStore).blobs.length = reqs.length := by
  have hload : load_articles (addAll reqs emptyStore) = reqs.map articleOfReq := by
    have hl := load_addAll reqs emptyStore
    simpa [emptyStore, load_articles] using hl
  have hids : (reqs.map articleOfReq).map Article.id = reqs.map AddReq.id := by
    rw [List.map_map]
    rfl
  have hfn : reqs.map (fun r => r.id ++ ".pdf") =
      (reqs.map AddReq.id).map (fun i => i ++ ".pdf") := by
    rw [List.map_map]
    rfl
  have hfn_nodup : (reqs.map (fun r => r.id ++ ".pdf")).Nodup := by
    rw [hfn]
    exact h.map (fun a b hab => append_pdf_inj a b hab)
  have hfresh0 : ((reqs.map (fun r => r.id ++ ".pdf")).all
      (fun f => !(blobHas [] f))) = true := by
    simp [blobHas]
  have hblobs : (addAll reqs emptyStore).blobs =
      reqs.map (fun r => (r.id ++ ".pdf", r.bytes)) := by
    have := blobs_addAll reqs none [] hfresh0 hfn_nodup
    simpa [emptyStore] using this
  refine ⟨?_, ?_, ?_, ?_, ?_⟩
  · rw [hload, List.length_map]
  · rw [hload, hids]
  · rw [hload, hids]; exact h
  · rw [hblobs, List.map_map]; rfl
  · rw [hblobs, List.length_map]

/-- C1, witness: two sequential adds with distinct ids yield two records
with the two ids and two blob files. -/
theorem c1_witness :
    (load_articles (addAll [reqA, reqB] emptyStore)).length = 2 ∧
    (load_articles (addAll [reqA, reqB] emptyStore)).map Article.id =
      ["id-a", "id-b"] ∧
    ((load_articles (addAll [reqA, reqB] emptyStore)).map Article.id).Nodup ∧
    (addAll [reqA, reqB] emptyStore).blobs.map Prod.fst =
      ["id-a.pdf", "id-b.pdf"] ∧
    (addAll [reqA, reqB] emptyStore).blobs.length = 2 :=
  c1_theorem [reqA, reqB] (by decide)

/-! ## Claims C9 and C10 -/

theorem blobHas_blobRemove (bl : List (String × List Nat)) (k : String) :
    blobHas (blobRemove bl k) k = false := by
  rw [blobHas, List.any_eq_false]
  intro x hx
  have := (List.mem_filter.mp hx).2
  simpa using this

/-- A delete that finds no record with the id returns `false` and
leaves the store unchanged. -/
theorem delete_absent (s : StoreState) (article_id : String)
    (hn : (load_articles s).find? (fun a => a.id == article_id) = none) :
    delete_article article_id s = (false, s) := by
  simp [delete_article, hn]

/-- The manifest left by a successful delete is the filtered original
collection. -/
theorem load_delete_found (s : StoreState) (article_id : String) (a : Article)
    (ha : (load_articles s).find? (fun x => x.id == article_id) = some a) :
    load_articles (delete_article article_id s).2 =
      (load_articles s).filter (fun x => x.id != article_id) := by
  simp only [delete_article, ha]
  split
  · simp [load_articles, save_articles]
  · simp [load_articles, save_articles]

/-- After any delete of an id, no record with that id remains to be
found. -/
theorem find_after_delete (s : StoreState) (article_id : String) :
    (load_articles (delete_article article_id s).2).find?
      (fun x => x.id == article_id) = none := by
  cases hfind : (load_articles s).find? (fun x => x.id == article_id) with
  | none =>
    rw [delete_absent s article_id hfind]
    exact hfind
  | some a =>
    rw [load_delete_found s article_id a hfind]
    apply List.find?_eq_none.mpr
    intro x hx
    have := (List.mem_filter.mp hx).2
    simpa using this

/-- C9: deleting an id absent from the manifest returns `false` and
leaves the whole store state (manifest and blob directory) unchanged; a
second delete of the same id returns `false` and changes nothing, and
after a delete that found its record the record's blob file is absent
from the blob directory (and, by the former, stays absent). -/
theorem c9_theorem (s : StoreState) (article_id : String) :
    ((load_articles s).all (fun a => a.id != article_id) = true →
      delete_article article_id s = (false, s)) ∧
    delete_article article_id ((delete_article article_id s).2) =
      (false, (delete_article article_id s).2) ∧
    (∀ a, (load_articles s).find? (fun x => x.id == article_id) = some a →
      blobHas ((delete_article article_id s).2).blobs a.filename = false) := by
  refine ⟨?_, ?_, ?_⟩
  · intro h
    have hn : (load_articles s).find? (fun a => a.id == article_id) = none := by
      apply List.find?_eq_none.mpr
      intro x hx
      have := List.all_eq_true.mp h x hx
      simpa using this
    exact delete_absent s article_id hn
  · exact delete_absent _ article_id (find_after_delete s article_id)
  · intro a ha
    simp only [delete_article, ha]
    split
    · exact blobHas_blobRemove s.blobs a.filename
    · rename_i hnb
      simpa using hnb

/-- C9, witness: deleting the absent id `"zzz"` from a concrete store
returns `false` with the store unchanged, and after deleting `"a1"` its
blob `a1.pdf` is gone from the blob directory. -/
theorem c9_witness :
    delete_article "zzz" storeW = (false, storeW) ∧
    blobHas ((delete_article "a1" storeW).2).blobs "a1.pdf" = false :=
  ⟨(c9_theorem storeW "zzz").1 (by decide),
   (c9_theorem storeW "a1").2.2 artW (by decide)⟩

/-- C10: deleting an id present in the manifest returns `true` and
leaves exactly the records whose id differs, with field values and
relative order preserved (the resulting manifest is the filter of the
original collection). -/
theorem c10_theorem (s : StoreState) (article_id : String)
    (h : (load_articles s).any (fun a => a.id == article_id) = true) :
    (delete_article article_id s).1 = true ∧
    load_articles (delete_article article_id s).2 =
      (load_articles s).filter (fun a => a.id != article_id) := by
  have hsome : ((load_articles s).find? (fun a => a.id == article_id)).isSome := by
    rw [List.find?_isSome]
    simpa using List.any_eq_true.mp h
  obtain ⟨a, ha⟩ := Option.isSome_iff_exists.mp hsome
  refine ⟨?_, load_delete_found s article_id a ha⟩
  simp only [delete_article, ha]
  split
  · rfl
  · rfl

/-- C10, witness: deleting `"a1"` from a concrete two-record store
returns `true` and leaves exactly the other record. -/
theorem c10_witness :
    (delete_article "a1" storeW).1 = true ∧
    load_articles (delete_article "a1" storeW).2 = [artW2] :=
  c10_theorem storeW "a1" (by decide)
